import Mathlib

/-!
Verification of the bounding-box extraction pipeline of the `todocajas`
repository (`scripts/get_bounding_box.py` and `referencias/models.py`).

The Python code is shallowly embedded as follows.

* A pdfplumber geometry object (curve, rect or line dict) exposes the numeric
  fields `x0`, `x1`, `top`, `bottom` (and, for curves, a vertex list `pts`
  that the code under verification never reads).  Coordinates are modelled as
  exact rationals (ℚ).
* A page exposes the three collections `curves`, `rects`, `lines`, plus the
  MediaBox width/height used only by the diagnostic entry point.
* A document is its list of pages; `pages[0]` on an empty list raises
  `IndexError`, modelled as an `Except` error.
* Python's `decimal.Decimal` pipeline
  `(Decimal(str(pt)) / Decimal(72)) * Decimal(25.4)` is modelled by exact
  rational arithmetic: `str` round-trips the coordinate value, and the
  28-significant-digit default context is exact for every quantity the
  claims exercise.  The `quantize(Decimal(0.1), rounding=ROUND_HALF_UP)`
  step is modelled faithfully as round-to-one-decimal with ties away from
  zero.
* Python's float division `bbox_width / bbox_height` raises
  `ZeroDivisionError` when the divisor is zero; modelled as an error value.
-/

namespace TodoCajas

/-- A pdfplumber geometry dict: the four coordinates the script reads,
plus the curve vertex list `pts` which the script never reads. -/
structure GeomObject where
  x0 : ℚ
  x1 : ℚ
  top : ℚ
  bottom : ℚ
  pts : List (ℚ × ℚ) := []
  deriving DecidableEq, Repr

/-- A pdfplumber page: the three geometry collections queried by the script,
and the MediaBox dimensions used by the diagnostic entry point. -/
structure Page where
  curves : List GeomObject
  rects : List GeomObject
  lines : List GeomObject
  mediaWidth : ℚ := 0
  mediaHeight : ℚ := 0
  deriving DecidableEq, Repr

/-- A parsed PDF document: its pages. -/
structure Document where
  pages : List Page
  deriving DecidableEq, Repr

/-- Python exceptions the embedded code can raise. -/
inductive PyError where
  | indexError
  | zeroDivisionError
  deriving DecidableEq, Repr

/-- The two coordinate pairs one object appends to `all_objects`:
`(obj[x0], obj[top])` then `(obj[x1], obj[bottom])`. -/
def objPoints (o : GeomObject) : List (ℚ × ℚ) :=
  [(o.x0, o.top), (o.x1, o.bottom)]

/-- The `all_objects` list built by both functions: two points per curve,
then per line, then per rect, in source order. -/
def allObjects (page : Page) : List (ℚ × ℚ) :=
  page.curves.flatMap objPoints ++ page.lines.flatMap objPoints ++
    page.rects.flatMap objPoints

/-- Python's `min` over the nonempty list `x :: xs`. -/
def pyMin (x : ℚ) (xs : List ℚ) : ℚ := xs.foldl min x

/-- Python's `max` over the nonempty list `x :: xs`. -/
def pyMax (x : ℚ) (xs : List ℚ) : ℚ := xs.foldl max x

/-- Point-to-millimeter conversion: `(pt / 72) * 25.4`. -/
def ptToMm (pt : ℚ) : ℚ := pt / 72 * (254 / 10)

/-- `Decimal.quantize(Decimal(0.1), rounding=ROUND_HALF_UP)`:
round to one decimal place, ties away from zero. -/
def quantize1HalfUp (q : ℚ) : ℚ :=
  if q < 0 then -((⌊(-q) * 10 + 1 / 2⌋ : ℚ) / 10)
  else (⌊q * 10 + 1 / 2⌋ : ℚ) / 10

/-- Round to one decimal place with ties to the even digit
(IEEE-754 / `ROUND_HALF_EVEN`), for contrast with `quantize1HalfUp`. -/
def quantize1HalfEven (q : ℚ) : ℚ :=
  let n := ⌊q * 10⌋
  if q * 10 - n < 1 / 2 then (n : ℚ) / 10
  else if q * 10 - n > 1 / 2 then ((n : ℚ) + 1) / 10
  else if n % 2 = 0 then (n : ℚ) / 10 else ((n : ℚ) + 1) / 10

/-- The per-page body of `get_bounding_box_mm`: returns the Python pair
`(width_mm, height_mm)`, or `(None, None)` when no collection is nonempty
(the code then falls through to `return None, None`). -/
def get_bounding_box_mm_page (page : Page) : Option ℚ × Option ℚ :=
  if page.curves ≠ [] ∨ page.lines ≠ [] ∨ page.rects ≠ [] then
    match allObjects page with
    | [] => (none, none)
    | p :: ps =>
      let min_x := pyMin p.1 (ps.map Prod.fst)
      let max_x := pyMax p.1 (ps.map Prod.fst)
      let min_y := pyMin p.2 (ps.map Prod.snd)
      let max_y := pyMax p.2 (ps.map Prod.snd)
      let bbox_width_pt := max_x - min_x
      let bbox_height_pt := max_y - min_y
      (some (quantize1HalfUp (ptToMm bbox_width_pt)),
       some (quantize1HalfUp (ptToMm bbox_height_pt)))
  else (none, none)

/-- `get_bounding_box_mm(pdf_path)`: opens the document, reads
`pdf.pages[0]` (raising `IndexError` on a document with zero pages) and
computes the rounded millimeter pair, or `(None, None)`. -/
def get_bounding_box_mm (doc : Document) : Except PyError (Option ℚ × Option ℚ) :=
  match doc.pages with
  | [] => .error .indexError
  | page :: _ => .ok (get_bounding_box_mm_page page)

/-- The raw point-unit bounding-box extents `(bbox_width_pt, bbox_height_pt)`
computed before unit conversion, `none` when `all_objects` is empty. -/
def bboxRawPt (page : Page) : Option (ℚ × ℚ) :=
  match allObjects page with
  | [] => none
  | p :: ps =>
      some (pyMax p.1 (ps.map Prod.fst) - pyMin p.1 (ps.map Prod.fst),
            pyMax p.2 (ps.map Prod.snd) - pyMin p.2 (ps.map Prod.snd))

/-- The raw (unrounded) millimeter values fed to the quantize step. -/
def bboxRawMm (page : Page) : Option (ℚ × ℚ) :=
  (bboxRawPt page).map fun wh => (ptToMm wh.1, ptToMm wh.2)

/-- `get_pdf_dimensions(pdf_path)`: the diagnostic entry point.  Reads
`reader.pages[0]` (raising `IndexError` on zero pages), then, when geometry
exists, prints a report whose aspect-ratio line divides
`bbox_width / bbox_height` with no guard — a `ZeroDivisionError` when the
bounding-box height is zero — and returns the point-unit pair; with no
geometry it falls off the end and returns `None`. -/
def get_pdf_dimensions (doc : Document) : Except PyError (Option (ℚ × ℚ)) :=
  match doc.pages with
  | [] => .error .indexError
  | page :: _ =>
    if page.curves ≠ [] ∨ page.lines ≠ [] ∨ page.rects ≠ [] then
      match allObjects page with
      | [] => .ok none
      | p :: ps =>
        let min_x := pyMin p.1 (ps.map Prod.fst)
        let max_x := pyMax p.1 (ps.map Prod.fst)
        let min_y := pyMin p.2 (ps.map Prod.snd)
        let max_y := pyMax p.2 (ps.map Prod.snd)
        let bbox_width := max_x - min_x
        let bbox_height := max_y - min_y
        if bbox_height = 0 then .error .zeroDivisionError
        else .ok (some (bbox_width, bbox_height))
    else .ok none

/-- The `Caja` model record: the persisted fields, including the two
`DecimalField`s `ancho_2d_mm` / `alto_2d_mm`, plus the two plain (
non-persisted) attributes `ancho_2d_cm` / `alto_2d_cm` that
`calcular_ancho_alto_2d` assigns. -/
structure Caja where
  ancho_cm : ℤ
  alto_cm : ℤ
  profundidad_cm : ℤ
  archivo_cdr : Option String := none
  archivo_pdf : Option Document := none
  ancho_2d_mm : Option ℚ := none
  alto_2d_mm : Option ℚ := none
  ancho_2d_cm : Option ℚ := none
  alto_2d_cm : Option ℚ := none
  deriving DecidableEq, Repr

/-- `Caja.save`: persists the record and (for a new or changed CDR file)
fires the asynchronous CloudConvert conversion in a daemon thread.  Neither
action changes any field of the in-memory record, so on the record's fields
`save` is the identity. -/
def Caja.save (c : Caja) : Caja := c

/-- `Caja.calcular_ancho_alto_2d`: raises `ValueError` when no PDF file is
attached; otherwise runs `get_bounding_box_mm` on the PDF, stores the pair
into the plain attributes `ancho_2d_cm` / `alto_2d_cm`, and saves. -/
def Caja.calcular_ancho_alto_2d (c : Caja) : Except Unit Caja :=
  match c.archivo_pdf with
  | none => .error ()
  | some doc =>
    match get_bounding_box_mm doc with
    | .error _ => .error ()
    | .ok wh =>
        .ok (Caja.save { c with ancho_2d_cm := wh.1, alto_2d_cm := wh.2 })

/-! ### Helper lemmas -/

theorem pyMin_le_init (x : ℚ) (xs : List ℚ) : pyMin x xs ≤ x := by
  induction xs generalizing x with
  | nil => exact le_refl x
  | cons a xs ih =>
      exact le_trans (ih (min x a)) (min_le_left x a)

theorem init_le_pyMax (x : ℚ) (xs : List ℚ) : x ≤ pyMax x xs := by
  induction xs generalizing x with
  | nil => exact le_refl x
  | cons a xs ih =>
      exact le_trans (le_max_left x a) (ih (max x a))

theorem pyMin_le_mem (x : ℚ) (xs : List ℚ) :
    ∀ y ∈ xs, pyMin x xs ≤ y := by
  induction xs generalizing x with
  | nil => intro y hy; cases hy
  | cons a xs ih =>
      intro y hy
      rcases List.mem_cons.1 hy with h | h
      · subst h
        exact le_trans (pyMin_le_init (min x y) xs) (min_le_right x y)
      · exact ih (min x a) y h

theorem mem_le_pyMax (x : ℚ) (xs : List ℚ) :
    ∀ y ∈ xs, y ≤ pyMax x xs := by
  induction xs generalizing x with
  | nil => intro y hy; cases hy
  | cons a xs ih =>
      intro y hy
      rcases List.mem_cons.1 hy with h | h
      · subst h
        exact le_trans (le_max_right x y) (init_le_pyMax (max x y) xs)
      · exact ih (max x a) y h

theorem pyMin_mem (x : ℚ) (xs : List ℚ) : pyMin x xs ∈ x :: xs := by
  induction xs generalizing x with
  | nil => exact List.mem_singleton.2 rfl
  | cons a xs ih =>
      rcases List.mem_cons.1 (ih (min x a)) with h | h
      · rcases min_choice x a with hc | hc
        · exact List.mem_cons.2 (Or.inl (h.trans hc))
        · exact List.mem_cons.2 (Or.inr (List.mem_cons.2 (Or.inl (h.trans hc))))
      · exact List.mem_cons.2 (Or.inr (List.mem_cons.2 (Or.inr h)))

theorem pyMax_mem (x : ℚ) (xs : List ℚ) : pyMax x xs ∈ x :: xs := by
  induction xs generalizing x with
  | nil => exact List.mem_singleton.2 rfl
  | cons a xs ih =>
      rcases List.mem_cons.1 (ih (max x a)) with h | h
      · rcases max_choice x a with hc | hc
        · exact List.mem_cons.2 (Or.inl (h.trans hc))
        · exact List.mem_cons.2 (Or.inr (List.mem_cons.2 (Or.inl (h.trans hc))))
      · exact List.mem_cons.2 (Or.inr (List.mem_cons.2 (Or.inr h)))

theorem flatMap_objPoints_eq_nil :
    ∀ l : List GeomObject, l.flatMap objPoints = [] ↔ l = []
  | [] => by simp
  | o :: l => by simp [objPoints]

theorem allObjects_eq_nil (page : Page) :
    allObjects page = [] ↔
      page.curves = [] ∧ page.lines = [] ∧ page.rects = [] := by
  rw [allObjects, List.append_eq_nil, List.append_eq_nil,
    flatMap_objPoints_eq_nil, flatMap_objPoints_eq_nil, flatMap_objPoints_eq_nil]
  tauto

/-- `get_bounding_box_mm_page` factored through the raw point extents. -/
theorem get_bounding_box_mm_page_eq (page : Page) :
    get_bounding_box_mm_page page =
      match bboxRawPt page with
      | none => (none, none)
      | some wh =>
          (some (quantize1HalfUp (ptToMm wh.1)),
           some (quantize1HalfUp (ptToMm wh.2))) := by
  by_cases h : page.curves ≠ [] ∨ page.lines ≠ [] ∨ page.rects ≠ []
  · rw [get_bounding_box_mm_page, if_pos h, bboxRawPt]
    cases allObjects page with
    | nil => rfl
    | cons p ps => rfl
  · push_neg at h
    have hA : allObjects page = [] :=
      (allObjects_eq_nil page).2 ⟨h.1, h.2.1, h.2.2⟩
    rw [get_bounding_box_mm_page, if_neg, bboxRawPt, hA]
    push_neg
    exact h

theorem bboxRawPt_nonneg (page : Page) (w h : ℚ)
    (hb : bboxRawPt page = some (w, h)) : 0 ≤ w ∧ 0 ≤ h := by
  rw [bboxRawPt] at hb
  cases hA : allObjects page with
  | nil => rw [hA] at hb; cases hb
  | cons p ps =>
      rw [hA] at hb
      injection hb with hb
      have hw : w = pyMax p.1 (ps.map Prod.fst) - pyMin p.1 (ps.map Prod.fst) :=
        (congrArg Prod.fst hb).symm
      have hh : h = pyMax p.2 (ps.map Prod.snd) - pyMin p.2 (ps.map Prod.snd) :=
        (congrArg Prod.snd hb).symm
      constructor
      · rw [hw]
        have := le_trans (pyMin_le_init p.1 (ps.map Prod.fst))
          (init_le_pyMax p.1 (ps.map Prod.fst))
        linarith
      · rw [hh]
        have := le_trans (pyMin_le_init p.2 (ps.map Prod.snd))
          (init_le_pyMax p.2 (ps.map Prod.snd))
        linarith

theorem ptToMm_nonneg (pt : ℚ) (h : 0 ≤ pt) : 0 ≤ ptToMm pt := by
  rw [ptToMm]
  positivity

theorem quantize1HalfUp_tie (q : ℚ) (n : ℤ) (hq : 0 ≤ q)
    (h : q * 100 = 10 * n + 5) : quantize1HalfUp q = q + 1 / 20 := by
  rw [quantize1HalfUp, if_neg (not_lt.2 hq)]
  have h10 : q * 10 + 1 / 2 = ((n + 1 : ℤ) : ℚ) := by push_cast; linarith
  rw [h10, Int.floor_intCast]
  push_cast
  linarith

theorem pyMin_le (x : ℚ) (xs : List ℚ) : ∀ y ∈ x :: xs, pyMin x xs ≤ y := by
  intro y hy
  rcases List.mem_cons.1 hy with h | h
  · exact h ▸ pyMin_le_init x xs
  · exact pyMin_le_mem x xs y h

theorem le_pyMax (x : ℚ) (xs : List ℚ) : ∀ y ∈ x :: xs, y ≤ pyMax x xs := by
  intro y hy
  rcases List.mem_cons.1 hy with h | h
  · exact h ▸ init_le_pyMax x xs
  · exact mem_le_pyMax x xs y h

theorem pyMax_sub_pyMin_of_const (x : ℚ) (xs : List ℚ)
    (hx : ∀ y ∈ x :: xs, y = x) : pyMax x xs - pyMin x xs = 0 := by
  have h1 := hx (pyMin x xs) (pyMin_mem x xs)
  have h2 := hx (pyMax x xs) (pyMax_mem x xs)
  rw [h1, h2, sub_self]

theorem quantize1HalfUp_zero : quantize1HalfUp 0 = 0 := by
  rw [quantize1HalfUp]
  norm_num

/-! ### Claims -/

/-- C1: for every document whose first page has zero curves, zero rectangles
and zero lines, `get_bounding_box_mm` returns the explicit absent value
`(None, None)` — a normal result, not an error, and not `(0.0, 0.0)`. -/
theorem C1_empty_first_page_absent (doc : Document) (page : Page)
    (rest : List Page) (hp : doc.pages = page :: rest)
    (hcurves : page.curves = []) (hrects : page.rects = [])
    (hlines : page.lines = []) :
    get_bounding_box_mm doc = .ok (none, none) ∧
    (∀ e : PyError, get_bounding_box_mm doc ≠ .error e) ∧
    get_bounding_box_mm doc ≠ .ok (some 0, some 0) := by
  have h : get_bounding_box_mm doc = .ok (none, none) := by
    unfold get_bounding_box_mm
    rw [hp]
    simp [get_bounding_box_mm_page, hcurves, hrects, hlines]
  refine ⟨h, fun e => ?_, ?_⟩ <;> rw [h] <;> simp

theorem C1_empty_first_page_absent_witness :
    get_bounding_box_mm ⟨[⟨[], [], [], 0, 0⟩]⟩ = .ok (none, none) :=
  (C1_empty_first_page_absent ⟨[⟨[], [], [], 0, 0⟩]⟩ ⟨[], [], [], 0, 0⟩ []
    rfl rfl rfl rfl).1

/-- C2: `get_bounding_box_mm` rounds each of the two millimeter values
independently to one decimal place with round-half-up: on every run the
returned pair is the half-up quantization of the raw values, and whenever
either raw value on its own ends in exactly `.x5` (i.e.
`raw * 100 = 10*n + 5` for some integer `n`) the corresponding returned
component is the larger decimal `raw + 0.05`, regardless of the other
value; the half-up rule differs from float round-half-to-even, which sends
`12.25` to `12.2` instead of `12.3`. -/
theorem C2_round_half_up_one_decimal (doc : Document) (page : Page)
    (rest : List Page) (rawW rawH : ℚ)
    (hp : doc.pages = page :: rest)
    (hraw : bboxRawMm page = some (rawW, rawH)) :
    get_bounding_box_mm doc =
      .ok (some (quantize1HalfUp rawW), some (quantize1HalfUp rawH)) ∧
    (∀ n : ℤ, rawW * 100 = 10 * n + 5 →
      get_bounding_box_mm doc =
        .ok (some (rawW + 1 / 20), some (quantize1HalfUp rawH))) ∧
    (∀ n : ℤ, rawH * 100 = 10 * n + 5 →
      get_bounding_box_mm doc =
        .ok (some (quantize1HalfUp rawW), some (rawH + 1 / 20))) ∧
    quantize1HalfUp (1225 / 100) = 123 / 10 ∧
    quantize1HalfEven (1225 / 100) = 122 / 10 := by
  rw [bboxRawMm] at hraw
  cases hb : bboxRawPt page with
  | none => rw [hb] at hraw; cases hraw
  | some wh =>
      rw [hb] at hraw
      injection hraw with hraw
      have hW0 : rawW = ptToMm wh.1 := (congrArg Prod.fst hraw).symm
      have hH0 : rawH = ptToMm wh.2 := (congrArg Prod.snd hraw).symm
      obtain ⟨hw1, hh1⟩ := bboxRawPt_nonneg page wh.1 wh.2 (by rw [hb])
      have hrw : 0 ≤ rawW := hW0 ▸ ptToMm_nonneg wh.1 hw1
      have hrh : 0 ≤ rawH := hH0 ▸ ptToMm_nonneg wh.2 hh1
      have h0 : get_bounding_box_mm doc =
          .ok (some (quantize1HalfUp rawW), some (quantize1HalfUp rawH)) := by
        unfold get_bounding_box_mm
        rw [hp]
        simp only [get_bounding_box_mm_page_eq, hb]
        rw [← hW0, ← hH0]
      refine ⟨h0, ?_, ?_, by rw [quantize1HalfUp]; norm_num,
        by rw [quantize1HalfEven]; norm_num⟩
      · intro n hn
        rw [h0, quantize1HalfUp_tie rawW n hrw hn]
      · intro n hn
        rw [h0, quantize1HalfUp_tie rawH n hrh hn]

theorem C2_round_half_up_one_decimal_witness :
    get_bounding_box_mm ⟨[⟨[], [⟨0, 18, 0, 36, []⟩], [], 0, 0⟩]⟩ =
      .ok (some (32 / 5), some (127 / 10)) := by
  have h := (C2_round_half_up_one_decimal
    ⟨[⟨[], [⟨0, 18, 0, 36, []⟩], [], 0, 0⟩]⟩
    ⟨[], [⟨0, 18, 0, 36, []⟩], [], 0, 0⟩ [] (127 / 20) (127 / 10) rfl
    (by norm_num [bboxRawMm, bboxRawPt, allObjects, objPoints, pyMin, pyMax,
      ptToMm])).2.1 63 (by norm_num)
  rw [h]
  norm_num [quantize1HalfUp]

/-- C3: every geometry object on the first page contributes exactly two
coordinate pairs to `all_objects` — `(x0, top)` and `(x1, bottom)` — so the
aggregate set has exactly two points per object, each of its members is one
of these two corners of some object, and an object's curve vertex list
`pts` is ignored entirely. -/
theorem C3_two_corner_points_per_object (page : Page) :
    (allObjects page).length =
        2 * (page.curves.length + page.lines.length + page.rects.length) ∧
    (∀ pt : ℚ × ℚ, pt ∈ allObjects page ↔
      ∃ o : GeomObject,
        (o ∈ page.curves ∨ o ∈ page.lines ∨ o ∈ page.rects) ∧
        (pt = (o.x0, o.top) ∨ pt = (o.x1, o.bottom))) ∧
    (∀ (o : GeomObject) (vs : List (ℚ × ℚ)),
        objPoints { o with pts := vs } = objPoints o) := by
  have hlen : ∀ l : List GeomObject, (l.flatMap objPoints).length = 2 * l.length := by
    intro l
    induction l with
    | nil => rfl
    | cons o l ih => simp [objPoints, ih]; ring
  refine ⟨?_, ?_, fun o vs => rfl⟩
  · simp [allObjects, hlen]
    ring
  · intro pt
    simp only [allObjects, List.mem_append, List.mem_flatMap, objPoints,
      List.mem_cons, List.not_mem_nil, or_false]
    constructor
    · rintro ((⟨o, ho, hpt⟩ | ⟨o, ho, hpt⟩) | ⟨o, ho, hpt⟩)
      · exact ⟨o, Or.inl ho, hpt⟩
      · exact ⟨o, Or.inr (Or.inl ho), hpt⟩
      · exact ⟨o, Or.inr (Or.inr ho), hpt⟩
    · rintro ⟨o, ho | ho | ho, hpt⟩
      · exact Or.inl (Or.inl ⟨o, ho, hpt⟩)
      · exact Or.inl (Or.inr ⟨o, ho, hpt⟩)
      · exact Or.inr ⟨o, ho, hpt⟩

/-- C4: for every non-empty first page the extents are the min/max over the
coordinates of all objects of all three collections pooled into one set:
the raw width and height are differences of a greatest and a least member
of the pooled x- (resp. y-) coordinate list; on the page with one rectangle
spanning x 0–10, y 0–5 and one line spanning x 20–30, y 0–5 the pooled
width is 30 − 0 = 30 pt (not 10 pt), and the result is (10.6, 1.8) mm. -/
theorem C4_pooled_across_collections (page : Page) (w h : ℚ)
    (hb : bboxRawPt page = some (w, h)) :
    (∃ xlo xhi : ℚ,
        xlo ∈ (allObjects page).map Prod.fst ∧
        xhi ∈ (allObjects page).map Prod.fst ∧
        (∀ x ∈ (allObjects page).map Prod.fst, xlo ≤ x ∧ x ≤ xhi) ∧
        w = xhi - xlo) ∧
    (∃ ylo yhi : ℚ,
        ylo ∈ (allObjects page).map Prod.snd ∧
        yhi ∈ (allObjects page).map Prod.snd ∧
        (∀ y ∈ (allObjects page).map Prod.snd, ylo ≤ y ∧ y ≤ yhi) ∧
        h = yhi - ylo) ∧
    bboxRawPt ⟨[], [⟨0, 10, 0, 5, []⟩], [⟨20, 30, 0, 5, []⟩], 0, 0⟩ =
      some (30, 5) ∧
    get_bounding_box_mm ⟨[⟨[], [⟨0, 10, 0, 5, []⟩], [⟨20, 30, 0, 5, []⟩], 0, 0⟩]⟩ =
      .ok (some (53 / 5), some (9 / 5)) := by
  rw [bboxRawPt] at hb
  cases hA : allObjects page with
  | nil => rw [hA] at hb; cases hb
  | cons p ps =>
      rw [hA] at hb
      injection hb with hb
      have hw : w = pyMax p.1 (ps.map Prod.fst) - pyMin p.1 (ps.map Prod.fst) :=
        (congrArg Prod.fst hb).symm
      have hh : h = pyMax p.2 (ps.map Prod.snd) - pyMin p.2 (ps.map Prod.snd) :=
        (congrArg Prod.snd hb).symm
      refine ⟨⟨pyMin p.1 (ps.map Prod.fst), pyMax p.1 (ps.map Prod.fst),
          ?_, ?_, ?_, hw⟩,
        ⟨pyMin p.2 (ps.map Prod.snd), pyMax p.2 (ps.map Prod.snd),
          ?_, ?_, ?_, hh⟩, ?_, ?_⟩
      · rw [List.map_cons]; exact pyMin_mem _ _
      · rw [List.map_cons]; exact pyMax_mem _ _
      · rw [List.map_cons]
        exact fun x hx => ⟨pyMin_le _ _ x hx, le_pyMax _ _ x hx⟩
      · rw [List.map_cons]; exact pyMin_mem _ _
      · rw [List.map_cons]; exact pyMax_mem _ _
      · rw [List.map_cons]
        exact fun y hy => ⟨pyMin_le _ _ y hy, le_pyMax _ _ y hy⟩
      · norm_num [bboxRawPt, allObjects, objPoints, pyMin, pyMax]
      · norm_num [get_bounding_box_mm, get_bounding_box_mm_page, allObjects,
          objPoints, pyMin, pyMax, ptToMm, quantize1HalfUp]

theorem C4_pooled_across_collections_witness :
    bboxRawPt ⟨[], [⟨0, 10, 0, 5, []⟩], [⟨20, 30, 0, 5, []⟩], 0, 0⟩ =
      some (30, 5) ∧
    get_bounding_box_mm ⟨[⟨[], [⟨0, 10, 0, 5, []⟩], [⟨20, 30, 0, 5, []⟩], 0, 0⟩]⟩ =
      .ok (some (53 / 5), some (9 / 5)) :=
  (C4_pooled_across_collections
    ⟨[], [⟨0, 10, 0, 5, []⟩], [⟨20, 30, 0, 5, []⟩], 0, 0⟩ 30 5
    (by norm_num [bboxRawPt, allObjects, objPoints, pyMin, pyMax])).2.2

/-- C5: point values are converted to millimeters as mm = (pt / 72) × 25.4,
and a first page whose only geometry is a single 72 pt × 36 pt rectangle
yields exactly (25.4, 12.7) mm. -/
theorem C5_points_to_millimeters (doc : Document) (page : Page)
    (rest : List Page) (wpt hpt : ℚ) (hp : doc.pages = page :: rest)
    (hb : bboxRawPt page = some (wpt, hpt)) :
    get_bounding_box_mm doc =
      .ok (some (quantize1HalfUp (wpt / 72 * (254 / 10))),
           some (quantize1HalfUp (hpt / 72 * (254 / 10)))) ∧
    get_bounding_box_mm ⟨[⟨[], [⟨0, 72, 0, 36, []⟩], [], 0, 0⟩]⟩ =
      .ok (some (127 / 5), some (127 / 10)) := by
  constructor
  · unfold get_bounding_box_mm
    rw [hp]
    simp only [get_bounding_box_mm_page_eq, hb, ptToMm]
  · norm_num [get_bounding_box_mm, get_bounding_box_mm_page, allObjects,
      objPoints, pyMin, pyMax, ptToMm, quantize1HalfUp]

theorem C5_points_to_millimeters_witness :
    get_bounding_box_mm ⟨[⟨[], [⟨0, 72, 0, 36, []⟩], [], 0, 0⟩]⟩ =
      .ok (some (127 / 5), some (127 / 10)) :=
  (C5_points_to_millimeters ⟨[⟨[], [⟨0, 72, 0, 36, []⟩], [], 0, 0⟩]⟩
    ⟨[], [⟨0, 72, 0, 36, []⟩], [], 0, 0⟩ [] 72 36 rfl
    (by norm_num [bboxRawPt, allObjects, objPoints, pyMin, pyMax])).2

/-- C6: the raw width and height (maxX − minX and maxY − minY) are never
negative, and when the pooled coordinates are degenerate — every collected
point shares the same x (resp. the same y) — the corresponding returned
dimension is exactly 0.0. -/
theorem C6_nonneg_and_degenerate_zero (page : Page) (wpt hpt : ℚ)
    (hb : bboxRawPt page = some (wpt, hpt)) :
    (0 ≤ wpt ∧ 0 ≤ hpt) ∧
    ((∀ p ∈ allObjects page, ∀ p2 ∈ allObjects page, p.1 = p2.1) →
        wpt = 0 ∧ (get_bounding_box_mm_page page).1 = some 0) ∧
    ((∀ p ∈ allObjects page, ∀ p2 ∈ allObjects page, p.2 = p2.2) →
        hpt = 0 ∧ (get_bounding_box_mm_page page).2 = some 0) := by
  refine ⟨bboxRawPt_nonneg page wpt hpt hb, ?_, ?_⟩
  · intro hall
    rw [bboxRawPt] at hb
    cases hA : allObjects page with
    | nil => rw [hA] at hb; cases hb
    | cons p ps =>
        rw [hA] at hb
        injection hb with hb
        have hw : wpt =
            pyMax p.1 (ps.map Prod.fst) - pyMin p.1 (ps.map Prod.fst) :=
          (congrArg Prod.fst hb).symm
        have hx : ∀ y ∈ p.1 :: ps.map Prod.fst, y = p.1 := by
          intro y hy
          rw [← List.map_cons] at hy
          obtain ⟨a, ha, rfl⟩ := List.mem_map.1 hy
          exact hall a (hA ▸ ha) p (hA ▸ List.mem_cons_self p ps)
        have hw0 : wpt = 0 := by
          rw [hw, pyMax_sub_pyMin_of_const p.1 (ps.map Prod.fst) hx]
        refine ⟨hw0, ?_⟩
        have hbb : bboxRawPt page = some (wpt, hpt) := by
          rw [bboxRawPt, hA]
          exact congrArg some hb
        simp only [get_bounding_box_mm_page_eq, hbb]
        rw [hw0]
        norm_num [ptToMm, quantize1HalfUp_zero]
  · intro hall
    rw [bboxRawPt] at hb
    cases hA : allObjects page with
    | nil => rw [hA] at hb; cases hb
    | cons p ps =>
        rw [hA] at hb
        injection hb with hb
        have hh : hpt =
            pyMax p.2 (ps.map Prod.snd) - pyMin p.2 (ps.map Prod.snd) :=
          (congrArg Prod.snd hb).symm
        have hy : ∀ y ∈ p.2 :: ps.map Prod.snd, y = p.2 := by
          intro y hy
          rw [← List.map_cons] at hy
          obtain ⟨a, ha, rfl⟩ := List.mem_map.1 hy
          exact hall a (hA ▸ ha) p (hA ▸ List.mem_cons_self p ps)
        have hh0 : hpt = 0 := by
          rw [hh, pyMax_sub_pyMin_of_const p.2 (ps.map Prod.snd) hy]
        refine ⟨hh0, ?_⟩
        have hbb : bboxRawPt page = some (wpt, hpt) := by
          rw [bboxRawPt, hA]
          exact congrArg some hb
        simp only [get_bounding_box_mm_page_eq, hbb]
        rw [hh0]
        norm_num [ptToMm, quantize1HalfUp_zero]

theorem C6_nonneg_and_degenerate_zero_witness :
    (get_bounding_box_mm_page ⟨[], [], [⟨3, 3, 1, 7, []⟩], 0, 0⟩).1 = some 0 :=
  ((C6_nonneg_and_degenerate_zero ⟨[], [], [⟨3, 3, 1, 7, []⟩], 0, 0⟩ 0 6
    (by norm_num [bboxRawPt, allObjects, objPoints, pyMin, pyMax])).2.1
    (by norm_num [allObjects, objPoints])).2

/-- C7: `Caja.calcular_ancho_alto_2d` stores the bounding-box pair only into
the plain attributes `ancho_2d_cm` / `alto_2d_cm`; the persisted model
fields `ancho_2d_mm` / `alto_2d_mm` are never assigned on that code path
and so are left unchanged. -/
theorem C7_persisted_mm_fields_unchanged (c c2 : Caja)
    (h : Caja.calcular_ancho_alto_2d c = .ok c2) :
    (c2.ancho_2d_mm = c.ancho_2d_mm ∧ c2.alto_2d_mm = c.alto_2d_mm) ∧
    ∃ doc : Document, c.archivo_pdf = some doc ∧
      get_bounding_box_mm doc = .ok (c2.ancho_2d_cm, c2.alto_2d_cm) := by
  rw [Caja.calcular_ancho_alto_2d] at h
  cases hpdf : c.archivo_pdf with
  | none => rw [hpdf] at h; cases h
  | some doc =>
      rw [hpdf] at h
      cases hg : get_bounding_box_mm doc with
      | error e => simp only [hg] at h; exact Except.noConfusion h
      | ok wh =>
          simp only [hg] at h
          injection h with h
          subst h
          exact ⟨⟨rfl, rfl⟩, doc, rfl, by rw [hg]; rfl⟩

def cajaDemo : Caja :=
  { ancho_cm := 1, alto_cm := 2, profundidad_cm := 3,
    archivo_pdf := some ⟨[⟨[], [⟨0, 72, 0, 36, []⟩], [], 0, 0⟩]⟩,
    ancho_2d_mm := some (9 / 2), alto_2d_mm := some (7 / 2) }

def cajaDemoSaved : Caja :=
  { cajaDemo with ancho_2d_cm := some (127 / 5), alto_2d_cm := some (127 / 10) }

theorem C7_persisted_mm_fields_unchanged_witness :
    cajaDemoSaved.ancho_2d_mm = cajaDemo.ancho_2d_mm ∧
    cajaDemoSaved.alto_2d_mm = cajaDemo.alto_2d_mm :=
  (C7_persisted_mm_fields_unchanged cajaDemo cajaDemoSaved
    (by norm_num [Caja.calcular_ancho_alto_2d, Caja.save, cajaDemo,
      cajaDemoSaved, get_bounding_box_mm, get_bounding_box_mm_page,
      allObjects, objPoints, pyMin, pyMax, ptToMm, quantize1HalfUp])).1

/-- C8: `get_bounding_box_mm` is a deterministic pure function of the
document content: two calls on the same unmodified document give identical
results, and the result depends on nothing besides that input. -/
theorem C8_deterministic_pure_function (d1 d2 : Document) (h : d1 = d2) :
    get_bounding_box_mm d1 = get_bounding_box_mm d2 := by rw [h]

theorem C8_deterministic_pure_function_witness :
    get_bounding_box_mm ⟨[⟨[], [⟨0, 72, 0, 36, []⟩], [], 0, 0⟩]⟩ =
      get_bounding_box_mm ⟨[⟨[], [⟨0, 72, 0, 36, []⟩], [], 0, 0⟩]⟩ :=
  C8_deterministic_pure_function _ _ rfl

/-- C9: `get_bounding_box_mm` never produces a partial result: whenever it
returns normally, either both millimeter components are present or the pair
is exactly `(None, None)` — never exactly one of the two. -/
theorem C9_no_partial_result (doc : Document) (r : Option ℚ × Option ℚ)
    (h : get_bounding_box_mm doc = .ok r) :
    (r.1.isSome = true ∧ r.2.isSome = true) ∨ r = (none, none) := by
  cases hp : doc.pages with
  | nil =>
      unfold get_bounding_box_mm at h
      rw [hp] at h
      cases h
  | cons page rest =>
      unfold get_bounding_box_mm at h
      rw [hp] at h
      injection h with h
      rw [get_bounding_box_mm_page_eq] at h
      cases hb : bboxRawPt page with
      | none => simp only [hb] at h; right; exact h.symm
      | some wh => simp only [hb] at h; left; rw [← h]; exact ⟨rfl, rfl⟩

theorem C9_no_partial_result_witness :
    ((some ((127 : ℚ) / 5), some ((127 : ℚ) / 10)).1.isSome = true ∧
     (some ((127 : ℚ) / 5), some ((127 : ℚ) / 10)).2.isSome = true) ∨
    ((some ((127 : ℚ) / 5), some ((127 : ℚ) / 10)) :
        Option ℚ × Option ℚ) = (none, none) :=
  C9_no_partial_result ⟨[⟨[], [⟨0, 72, 0, 36, []⟩], [], 0, 0⟩]⟩
    (some (127 / 5), some (127 / 10))
    (by norm_num [get_bounding_box_mm, get_bounding_box_mm_page, allObjects,
      objPoints, pyMin, pyMax, ptToMm, quantize1HalfUp])

/-- C10: the diagnostic mode `get_pdf_dimensions` divides
`bbox_width / bbox_height` with no guard, so on a valid page whose geometry
all shares one y value — bounding-box height exactly zero, a degenerate
input the model permits and `get_bounding_box_mm` itself handles — it
raises `ZeroDivisionError` instead of producing the report. -/
theorem C10_zero_height_aspect_ratio_crash :
    get_pdf_dimensions ⟨[⟨[], [], [⟨0, 10, 4, 4, []⟩], 0, 0⟩]⟩ =
      .error .zeroDivisionError ∧
    get_bounding_box_mm ⟨[⟨[], [], [⟨0, 10, 4, 4, []⟩], 0, 0⟩]⟩ =
      .ok (some (7 / 2), some 0) := by
  constructor
  · norm_num [get_pdf_dimensions, allObjects, objPoints, pyMin, pyMax]
  · norm_num [get_bounding_box_mm, get_bounding_box_mm_page, allObjects,
      objPoints, pyMin, pyMax, ptToMm, quantize1HalfUp]

end TodoCajas
